import Mathlib

/-!
Verification development for the container-registry card-catalog program.

The definitions below are shallow embeddings of the registry client and UI
modules (`registry_client.py`, `container_registry_card_catalog.py`,
`debug_console.py`).  Python dictionaries become structures or association
lists, Python string truthiness is modelled explicitly, machine-level
concerns (base64 packaging of credentials, wall-clock formatting, HTTP
socket behaviour) are abstracted into opaque constructors or oracle
parameters, and every fallible operation is total, returning the record
the Python code would return.
-/

namespace CardCatalog

/-! ### String helpers

Python compares strings lexicographically by code point and lowercases
them per character; `.lower()` on the ASCII keys used here is the
per-character lowercase map.  We model strings through their character
lists so that every comparison is kernel-computable. -/

/-- Lowercase a string character by character (model of Python `str.lower`
for the ASCII data handled by the program). -/
def lowerStr (s : String) : String := ⟨s.data.map Char.toLower⟩

/-- Lexicographic less-or-equal on character lists by code point (model of
Python string comparison). -/
def charListLe : List Char → List Char → Bool
  | [], _ => true
  | _ :: _, [] => false
  | a :: as, b :: bs =>
    if a = b then charListLe as bs else decide (a.toNat < b.toNat)

/-- Case-insensitive string order used by every `key=str.lower` /
`key=lambda x: x.lower()` sort in the source. -/
def lowerLe (a b : String) : Prop :=
  charListLe (lowerStr a).data (lowerStr b).data = true

instance : DecidableRel lowerLe :=
  fun a b => Bool.decEq (charListLe (lowerStr a).data (lowerStr b).data) true

theorem charToNatInj {a b : Char} (h : a.toNat = b.toNat) : a = b := by
  apply Char.ext
  apply UInt32.eq_of_val_eq
  exact Fin.ext h

theorem charListLe_total : ∀ as bs : List Char, charListLe as bs = true ∨ charListLe bs as = true := by
  intro as
  induction as with
  | nil => intro bs; left; rfl
  | cons a as ih =>
    intro bs
    cases bs with
    | nil => right; rfl
    | cons b bs =>
      simp only [charListLe]
      by_cases hab : a = b
      · subst hab
        simp only [if_pos rfl]
        exact ih bs
      · have hba : ¬ b = a := fun h => hab h.symm
        simp only [if_neg hab, if_neg hba]
        rcases Nat.lt_or_ge a.toNat b.toNat with h | h
        · left; simpa using h
        · right
          have : b.toNat < a.toNat := by
            rcases Nat.lt_or_ge b.toNat a.toNat with h2 | h2
            · exact h2
            · exact absurd (charToNatInj (by omega)) hab
          simpa using this

theorem charListLe_trans : ∀ as bs cs : List Char,
    charListLe as bs = true → charListLe bs cs = true → charListLe as cs = true := by
  intro as
  induction as with
  | nil => intro bs cs _ _; rfl
  | cons a as ih =>
    intro bs cs h1 h2
    cases bs with
    | nil => simp [charListLe] at h1
    | cons b bs =>
      cases cs with
      | nil => simp [charListLe] at h2
      | cons c cs =>
        simp only [charListLe] at h1 h2 ⊢
        by_cases hab : a = b
        · subst hab
          simp only [if_pos rfl] at h1
          by_cases hbc : a = c
          · subst hbc
            simp only [if_pos rfl] at h2 ⊢
            exact ih bs cs h1 h2
          · simp only [if_neg hbc] at h2 ⊢
            exact h2
        · simp only [if_neg hab] at h1
          by_cases hbc : b = c
          · subst hbc
            simp only [if_neg hab] at h1 ⊢
            exact h1
          · simp only [if_neg hbc] at h2
            by_cases hac : a = c
            · subst hac
              have h1' : a.toNat < b.toNat := by simpa using h1
              have h2' : b.toNat < a.toNat := by simpa using h2
              omega
            · simp only [if_neg hac]
              have h1' : a.toNat < b.toNat := by simpa using h1
              have h2' : b.toNat < c.toNat := by simpa using h2
              simp only [decide_eq_true_eq]
              omega

instance : IsTotal String lowerLe :=
  ⟨fun a b => charListLe_total (lowerStr a).data (lowerStr b).data⟩

instance : IsTrans String lowerLe :=
  ⟨fun a b c h1 h2 => charListLe_trans _ _ _ h1 h2⟩

/-- Boolean test: `needle` is a leading segment of `hay`. -/
def leadSeg [DecidableEq α] : List α → List α → Bool
  | [], _ => true
  | _ :: _, [] => false
  | a :: as, b :: bs => if a = b then leadSeg as bs else false

/-- Boolean test: `needle` occurs contiguously inside `hay` (model of the
Python `in` operator on strings). -/
def hasSubList [DecidableEq α] (needle : List α) : List α → Bool
  | [] => needle.isEmpty
  | b :: bs => leadSeg needle (b :: bs) || hasSubList needle bs

/-- Python `needle in hay` for strings. -/
def strHasSub (hay needle : String) : Bool := hasSubList needle.data hay.data

/-- Python truthiness of an optional string (`None` and `""` are falsy). -/
def optStrTruthy : Option String → Bool
  | none => false
  | some s => !s.isEmpty

/-- Python truthiness of an optional number (`None` and `0` are falsy). -/
def optNatTruthy : Option Nat → Bool
  | none => false
  | some n => decide (n ≠ 0)

/-! ### AuthContext: `RegistryClient._get_auth_headers` and friends

The base64 packaging performed by `_get_basic_auth_header` /
`_get_bearer_auth_header` is abstracted as injective constructors: the
claims under study concern which header is produced and when, not the
byte-level encoding. -/

/-- Shape of the `Authorization` header value produced by the client. -/
inductive AuthHeaderVal
  /-- `Basic base64(user:pass)` from `_get_basic_auth_header`. -/
  | basicCred (user pass : String)
  /-- `Bearer base64(user:pass)` from `_get_bearer_auth_header` when both
  username and password are set. -/
  | bearerCred (user pass : String)
  /-- `Bearer <token>` — raw bearer password or a cached/acquired token. -/
  | bearerTok (tok : String)
  deriving DecidableEq, Repr

/-- Token-cache slice of the `RegistryClient` state touched by
`_get_auth_headers`: `cached_token` and `token_expires_at`. -/
structure TokenState where
  cached_token : Option String
  token_expires_at : Option Nat
  deriving DecidableEq, Repr

/-- Embedding of `RegistryClient._get_auth_headers` (registry_client.py
lines 148-176).  Returns the optional `Authorization` header value
together with the updated token cache; `now` stands for `time.time()`.
Python truthiness of `self.cached_token` and `self.token_expires_at`
is modelled explicitly. -/
def getAuthHeaders (authType : String) (username password : Option String)
    (st : TokenState) (now : Nat) : Option AuthHeaderVal × TokenState :=
  if authType = "basic" then
    if optStrTruthy username && optStrTruthy password then
      (some (.basicCred (username.getD "") (password.getD "")), st)
    else (none, st)
  else if authType = "bearer" then
    if optStrTruthy password then
      if optStrTruthy username && optStrTruthy password then
        (some (.bearerCred (username.getD "") (password.getD "")), st)
      else (some (.bearerTok (password.getD "")), st)
    else (none, st)
  else if authType = "token" && optStrTruthy st.cached_token then
    if optNatTruthy st.token_expires_at && decide (st.token_expires_at.getD 0 ≤ now) then
      (none, { st with cached_token := none })
    else (some (.bearerTok (st.cached_token.getD "")), st)
  else (none, st)

/-- Spec-side usability predicate, following the words of the claim: the
cached token is usable iff it is present and (`expires_at` is absent or
`now < expires_at`). -/
def tokenUsableSpec (st : TokenState) (now : Nat) : Bool :=
  optStrTruthy st.cached_token &&
    (st.token_expires_at.isNone || decide (now < st.token_expires_at.getD 0))

/-! ### HttpRegistryTransport: `RegistryClient._make_request` and
`RegistryClient.get_manifest`

The HTTP socket is an oracle: each potential GET is represented by an
`Except` value — an exception message (the `except` branch) or a
response.  `_get_registry_token` is likewise abstracted to its observable
outcome (`Option String`), which is all the 401-upgrade path inspects.
The wall-clock `timestamp` field and the parsed `json` field are omitted;
`duration_ms` is passed in as the elapsed time the code would measure. -/

/-- Response of an HTTP GET as seen by the client. -/
structure HttpResponse where
  status_code : Nat
  /-- the decoded response text (`response.text`). -/
  body : String
  /-- byte length of the raw body (`len(response.content)`). -/
  size_bytes : Nat
  deriving DecidableEq, Repr

/-- Record shape produced by the transport for every call, success or
failure (`response_data` dictionaries in registry_client.py). -/
structure ApiRecord where
  url : String
  method : String
  status_code : Nat
  duration_ms : Nat
  size_bytes : Nat
  content_preview : String
  response_content_full : String
  error : Option String
  deriving DecidableEq, Repr

/-- Python `value[:n]` on strings. -/
def strTake (n : Nat) (s : String) : String := ⟨s.data.take n⟩

/-- Diagnostic hint appended to transport-failure text (registry_client.py
lines 367-373 and 455-461): Google-hosted URLs first, then TLS/certificate
errors, then permission/unauthorized errors. -/
def errorHint (url errStr : String) : String :=
  if strHasSub url "gcr.io" || strHasSub url "googleapis.com" then
    " (Note: Google registries require authentication)"
  else if strHasSub (lowerStr errStr) "certificate" || strHasSub (lowerStr errStr) "ssl" then
    " (TLS/SSL certificate issue)"
  else if strHasSub (lowerStr errStr) "permission" || strHasSub (lowerStr errStr) "unauthorized" then
    " (Authentication required)"
  else ""

/-- Record returned by the `except` branch of `_make_request` /
`get_manifest`: status 0, zero size, elapsed duration, annotated error
text. -/
def mkErrorRecord (url errStr : String) (elapsed : Nat) : ApiRecord :=
  { url := url, method := "GET", status_code := 0, duration_ms := elapsed,
    size_bytes := 0,
    content_preview := "Error: " ++ errStr ++ errorHint url errStr,
    response_content_full := "Error: " ++ errStr ++ errorHint url errStr,
    error := some errStr }

/-- Record built from a successful (non-raising) GET. -/
def mkOkRecord (url : String) (resp : HttpResponse) (elapsed : Nat) : ApiRecord :=
  { url := url, method := "GET", status_code := resp.status_code,
    duration_ms := elapsed, size_bytes := resp.size_bytes,
    content_preview := strTake 500 resp.body,
    response_content_full := resp.body, error := none }

/-- Embedding of `RegistryClient._make_request` (registry_client.py lines
301-386).  `firstOutcome` is the first GET, `tokenOutcome` the result of
`_get_registry_token`, `retryOutcome` the retried GET.  Besides the
record, it returns the trace of GETs actually issued, each with the
`Authorization` header attached to it. -/
def makeRequest (authType : String) (username password : Option String)
    (st : TokenState) (now elapsed : Nat) (url : String)
    (firstOutcome : Except String HttpResponse)
    (tokenOutcome : Option String)
    (retryOutcome : Except String HttpResponse) :
    ApiRecord × List (Option AuthHeaderVal) :=
  let auth0 := (getAuthHeaders authType username password st now).1
  match firstOutcome with
  | .error e => (mkErrorRecord url e elapsed, [auth0])
  | .ok resp =>
    if resp.status_code = 401 then
      if optStrTruthy username && optStrTruthy password && decide (authType ≠ "basic") then
        match tokenOutcome with
        | some tok =>
          match retryOutcome with
          | .error e => (mkErrorRecord url e elapsed, [auth0, some (.bearerTok tok)])
          | .ok resp2 => (mkOkRecord url resp2 elapsed, [auth0, some (.bearerTok tok)])
        | none => (mkOkRecord url resp elapsed, [auth0])
      else (mkOkRecord url resp elapsed, [auth0])
    else (mkOkRecord url resp elapsed, [auth0])

/-- Embedding of `RegistryClient.get_manifest` (registry_client.py lines
410-474): one GET with the up-front auth headers (plus the constant
`Accept` list, not modelled), no 401 upgrade path at all. -/
def getManifest (authType : String) (username password : Option String)
    (st : TokenState) (now elapsed : Nat) (url : String)
    (outcome : Except String HttpResponse) :
    ApiRecord × List (Option AuthHeaderVal) :=
  let auth0 := (getAuthHeaders authType username password st now).1
  match outcome with
  | .error e => (mkErrorRecord url e elapsed, [auth0])
  | .ok resp => (mkOkRecord url resp elapsed, [auth0])

/-! ### TUIDebugLogger: secret redaction before logging

Embedding of `TUIDebugLogger._mask_sensitive_data` and the kwargs
masking done by `TUIDebugLogger.debug`
(container_registry_card_catalog.py lines 71-115). -/

/-- Sensitive-keyword list, verbatim from the source. -/
def sensitiveKeywords : List String :=
  ["password", "passwd", "pass", "passphrase", "pwd",
   "cached_token", "access_token", "refresh_token", "bearer_token",
   "credential", "cred", "creds", "credentials",
   "authorization", "authenticate",
   "secret", "private", "api_key", "apikey", "access_key",
   "robot_token", "service_token", "service_key",
   "oauth_token", "jwt_token",
   "registry_token", "docker_token", "quay_token",
   "x-auth", "www-authenticate"]

/-- A key is sensitive when its lowercase form contains any keyword. -/
def isSensitiveKey (key : String) : Bool :=
  sensitiveKeywords.any (fun kw => strHasSub (lowerStr key) kw)

/-- Embedding of `TUIDebugLogger._mask_sensitive_data`: sensitive values
of length at most 8 (or empty) become `[REDACTED]`; longer ones are cut
to first 3 + `...` + last 3; non-sensitive keys pass through. -/
def maskSensitiveData (key value : String) : String :=
  if isSensitiveKey key then
    if value.data.length > 0 then
      if value.data.length ≤ 8 then "[REDACTED]"
      else (⟨value.data.take 3⟩ : String) ++ "..." ++
           (⟨value.data.drop (value.data.length - 3)⟩ : String)
    else "[REDACTED]"
  else value

/-- Kwargs masking done by `TUIDebugLogger.debug` before any value
reaches the log line: every pair is passed through the mask, keyed by its
own key. -/
def mkSafeKwargs (kwargs : List (String × String)) : List (String × String) :=
  kwargs.map (fun p => (p.1, maskSensitiveData p.1 p.2))

/-- Whitelist of response-header names kept by
`RegistryClient._filter_response_headers` (registry_client.py lines
76-85), verbatim from the source. -/
def safeResponseHeaders : List String :=
  ["content-type", "content-length", "content-encoding",
   "date", "cache-control", "expires", "last-modified",
   "link", "location",
   "docker-content-digest", "docker-distribution-api-version",
   "x-ratelimit-limit", "x-ratelimit-remaining", "x-ratelimit-reset",
   "www-authenticate",
   "access-control-allow-origin", "access-control-allow-methods",
   "strict-transport-security", "x-content-type-options"]

/-- Keep-or-drop decision of `_filter_response_headers` for one header
key: whitelisted names are kept, as are custom `x-` headers whose
lowercase key contains none of `auth`/`token`/`key`/`secret`; everything
else (notably `Authorization` and `Set-Cookie`) is dropped. -/
def headerKept (key : String) : Bool :=
  safeResponseHeaders.contains (lowerStr key) ||
    (leadSeg ("x-").data (lowerStr key).data &&
      !(["auth", "token", "key", "secret"].any
        (fun s => strHasSub (lowerStr key) s)))

/-- Embedding of `RegistryClient._filter_response_headers`
(registry_client.py lines 69-108): kept headers pass through with their
values unchanged; dropped headers are omitted from the stored record. -/
def filterResponseHeaders (headers : List (String × String)) :
    List (String × String) :=
  headers.filter (fun p => headerKept p.1)

/-! ### CallAuditLog: `RegistryManager.add_api_call` and the purge action -/

/-- Embedding of `RegistryManager.add_api_call` (registry_client.py lines
548-553): append, then keep only the last 100 entries. -/
def addApiCall (log : List ApiRecord) (r : ApiRecord) : List ApiRecord :=
  let l := log ++ [r]
  if l.length > 100 then l.drop (l.length - 100) else l

/-- Embedding of the purge performed by `DebugConsoleScreen.action_purge`
(debug_console.py line 345): `registry_manager.api_call_log.clear()`. -/
def purgeApiCalls (_log : List ApiRecord) : List ApiRecord := []

/-! ### LinkHeaderPaginator: `RegistryManager.get_repositories`

The registry server is modelled as the sequence of catalog pages it will
serve, in order.  Each page carries the HTTP status, the `repositories`
JSON array, and the continuation token the client's
`_parse_link_header` / `_extract_next_page_token` pair would extract from
the `Link` header (`none` when the response has no `Link: ...rel="next"`
header).  The client walks this sequence exactly as the `while` loop of
`get_repositories` walks its successive `get_catalog` responses. -/

/-- One catalog page as the pagination loop sees it. -/
structure CatalogPage where
  status_code : Nat
  repos : List String
  /-- token extracted from the `Link` header's `rel="next"` URL, if any. -/
  linkNext : Option String
  deriving DecidableEq, Repr

/-- Embedding of the page-accumulation `while` loop of
`RegistryManager.get_repositories` (registry_client.py lines 754-822).
Returns the accumulated repository names and the final value of the
`next_page_token` variable.  Note the loop's exact break structure: a
non-200 page, an empty page, or a missing `next` link break out (the
token variable keeping its previous value in the last case), and a page
smaller than `pageSize` breaks out even after a `next` token was just
stored. -/
def fetchCatalogPages (pageSize target : Nat) :
    List CatalogPage → List String → Option String → List String × Option String
  | [], acc, tok => (acc, tok)
  | p :: rest, acc, tok =>
    if target ≤ acc.length then (acc, tok)
    else if p.status_code ≠ 200 then (acc, tok)
    else if p.repos.isEmpty then (acc, tok)
    else
      match p.linkNext with
      | none => (acc ++ p.repos, tok)
      | some t =>
        if p.repos.length < pageSize then (acc ++ p.repos, some t)
        else fetchCatalogPages pageSize target rest (acc ++ p.repos) (some t)

/-- Pagination metadata of a `get_repositories` result (registry_client.py
lines 916-924). -/
structure PaginationMeta where
  method : String
  next_page_token : Option String
  total_loaded : Nat
  has_more : Bool
  final_offset : Nat
  final_limit : Nat
  deriving DecidableEq, Repr

/-- Result of `get_repositories`, at the granularity of repository names. -/
structure GetReposResult where
  names : List String
  pagination : PaginationMeta
  deriving DecidableEq, Repr

/-- Embedding of `RegistryManager.get_repositories` (registry_client.py
lines 741-930) for a configuration with no monitored repositories (the
monitored-merge stage, lines 879-902, is embedded separately as
`mergeMonitoredCatalog`): fetch pages until `offset + limit` names are
accumulated, slice the `all_repositories[offset:offset+limit]` window,
build one entry per name of `repositories[:limit]`, sort the catalog
entries case-insensitively, and report pagination metadata. -/
def getRepositoriesModel (server : List CatalogPage) (offset limit : Nat) :
    GetReposResult :=
  let pageSize := min 100 (limit + offset)
  let fetched := fetchCatalogPages pageSize (offset + limit) server [] none
  let all_repositories := fetched.1
  let next_page_token := fetched.2
  let window := (all_repositories.drop offset).take limit
  let names := window.take limit
  { names := List.insertionSort lowerLe names,
    pagination :=
      { method := if optStrTruthy next_page_token then "link_header" else "complete",
        next_page_token := next_page_token,
        total_loaded := all_repositories.length,
        has_more := optStrTruthy next_page_token,
        final_offset := offset, final_limit := limit } }

/-- A server that splits catalog `l` into pages of size `P`: `take P`
then recurse on `drop P`, with fuel for structural recursion (fuel
`l.length` suffices whenever `1 ≤ P`). -/
def chunkAux (P : Nat) : Nat → List String → List (List String)
  | 0, _ => []
  | _, [] => []
  | fuel + 1, l => l.take P :: chunkAux P fuel (l.drop P)

/-- Catalog `l` split into server pages of size `P`. -/
def chunkList (P : Nat) (l : List String) : List (List String) :=
  chunkAux P l.length l

/-- Turn chunks into served pages: HTTP 200 everywhere, and every page
except the last carries a `Link: rel="next"` token. -/
def mkPages : List (List String) → List CatalogPage
  | [] => []
  | [c] => [⟨200, c, none⟩]
  | c :: rest => ⟨200, c, some "next-token"⟩ :: mkPages rest

/-! ### Pagination continuation and the token-expiry fallback

`RegistryManager.continue_repositories_pagination` (registry_client.py
lines 932-1059) and the `link_header` branch of
`load_more_repositories` (container_registry_card_catalog.py lines
984-1043). -/

/-- Result of `continue_repositories_pagination`, at the granularity of
repository names. -/
structure ContinuationResult where
  names : List String
  method : String
  next_page_token : Option String
  has_more : Bool
  token_expired : Bool
  error : Option String
  deriving DecidableEq, Repr

/-- Embedding of `RegistryManager.continue_repositories_pagination`:
`contPage` is the response to the single catalog request made with the
stored `next_page` token.  Non-200 yields the `failed` record with
`token_expired` set exactly for HTTP 400/401; otherwise the page's
repositories are returned sorted case-insensitively together with any
further continuation token. -/
def continueRepositoriesPagination (contPage : CatalogPage) : ContinuationResult :=
  if contPage.status_code ≠ 200 then
    { names := [], method := "failed", next_page_token := none,
      has_more := false,
      token_expired := contPage.status_code = 400 ∨ contPage.status_code = 401,
      error := some ("Status " ++ toString contPage.status_code ++
        (if contPage.status_code = 400 then " - Token may have expired"
         else if contPage.status_code = 401 then " - Authentication failed, token may be expired"
         else "")) }
  else
    { names := List.insertionSort lowerLe contPage.repos,
      method := "link_header_continuation",
      next_page_token := contPage.linkNext,
      has_more := optStrTruthy contPage.linkNext,
      token_expired := false, error := none }

/-- Pagination state kept by the repository screen
(`self.next_page_token`, `self.pagination_method`,
`len(self.repository_data)`, `self.all_repositories_loaded`). -/
structure ScreenPagState where
  next_page_token : Option String
  pagination_method : String
  repo_count : Nat
  all_repositories_loaded : Bool
  deriving DecidableEq, Repr

/-- Embedding of `load_more_repositories`
(container_registry_card_catalog.py lines 984-1043): when a truthy token
and the `link_header` method are present, run the continuation with
`contPage`; on `token_expired`, clear the token, set the method tag to
`offset_fallback_due_to_expiration`, and retry via offset-based
`get_repositories` with `offset = len(self.repository_data)` and
`limit = batch_size = 100` against the same `server`; otherwise use the
offset-based branch directly.  The function ends with the common tail of
the source: an empty batch forces `all_repositories_loaded = True`.
Returns the new screen state and the repositories handed to the UI. -/
def loadMoreRepositories (st : ScreenPagState) (contPage : CatalogPage)
    (server : List CatalogPage) : ScreenPagState × List String :=
  let batch_size := 100
  let step : ScreenPagState × List String :=
    if optStrTruthy st.next_page_token && (st.pagination_method == "link_header") then
      let result := continueRepositoriesPagination contPage
      if result.token_expired then
        let fb := getRepositoriesModel server st.repo_count batch_size
        ({ next_page_token := fb.pagination.next_page_token,
           pagination_method := "offset_fallback_due_to_expiration",
           repo_count := st.repo_count + fb.names.length,
           all_repositories_loaded := !fb.pagination.has_more }, fb.names)
      else
        ({ next_page_token := result.next_page_token,
           pagination_method := st.pagination_method,
           repo_count := st.repo_count + result.names.length,
           all_repositories_loaded := !result.has_more }, result.names)
    else
      let r := getRepositoriesModel server st.repo_count batch_size
      ({ next_page_token := r.pagination.next_page_token,
         pagination_method := st.pagination_method,
         repo_count := st.repo_count + r.names.length,
         all_repositories_loaded := !r.pagination.has_more }, r.names)
  if step.2.isEmpty then
    ({ step.1 with all_repositories_loaded := true }, step.2)
  else step

/-! ### MonitoredRepositoryMerger: the merge stage of `get_repositories`
(registry_client.py lines 879-902). -/

/-- One row of the repository listing, at the granularity the merge stage
manipulates. -/
structure RepoEntry where
  name : String
  is_monitored : Bool
  is_error : Bool
  deriving DecidableEq, Repr

/-- Case-insensitive order on entries (`key=lambda x: x['name'].lower()`). -/
def entryLe (a b : RepoEntry) : Prop := lowerLe a.name b.name

instance : DecidableRel entryLe := fun a b => inferInstanceAs (Decidable (lowerLe a.name b.name))

instance : IsTotal RepoEntry entryLe := ⟨fun a b => IsTotal.total (r := lowerLe) a.name b.name⟩

instance : IsTrans RepoEntry entryLe :=
  ⟨fun _ _ _ h1 h2 => IsTrans.trans (r := lowerLe) _ _ _ h1 h2⟩

/-- Embedding of the merge stage of `RegistryManager.get_repositories`:
drop catalog entries whose name matches a successfully fetched monitored
entry, append failed monitored repositories as error rows, sort each
group case-insensitively, and concatenate monitored-then-catalog. -/
def mergeMonitoredCatalog (monitored_repo_data repo_data : List RepoEntry)
    (failed : List (String × String)) : List RepoEntry :=
  let monitored_repo_names := monitored_repo_data.map (fun e => e.name)
  let catalog_repo_data :=
    repo_data.filter (fun r => !(monitored_repo_names.contains r.name))
  let monitoredAll := monitored_repo_data ++
    failed.map (fun f => { name := f.1, is_monitored := true, is_error := true })
  List.insertionSort entryLe monitoredAll ++ List.insertionSort entryLe catalog_repo_data

/-! ### Recent-tag selection: `sort_tags_by_timestamp`
(registry_client.py lines 23-47) and its use in `get_repositories`
(lines 701-703). -/

/-- Manifest metadata entry as found in a tags-list response.  The source
reads `timeUploadedMs` / `timeCreatedMs` as decimal strings defaulting to
`"0"`; they are modelled as naturals with 0 for "absent or zero". -/
structure ManifestMeta where
  tag : List String
  timeUploadedMs : Nat
  timeCreatedMs : Nat
  deriving DecidableEq, Repr

/-- Timestamp chosen for a manifest: upload time if nonzero, else
creation time. -/
def manifestTimestamp (m : ManifestMeta) : Nat :=
  if m.timeUploadedMs ≠ 0 then m.timeUploadedMs else m.timeCreatedMs

/-- Build the `tag -> timestamp` map (later manifests overwrite earlier
tags, as Python dict assignment does; newest binding sits at the front). -/
def buildTagTimestamps (md : List (String × ManifestMeta)) : List (String × Nat) :=
  md.foldl
    (fun acc p => (p.2.tag.map (fun t => (t, manifestTimestamp p.2))).reverse ++ acc) []

/-- Lookup with Python's `dict.get(tag, 0)` default. -/
def tagTsOf (m : List (String × Nat)) (tag : String) : Nat :=
  match m.find? (fun p => p.1 = tag) with
  | some p => p.2
  | none => 0

/-- Sort key order used with metadata: `(-timestamp, tag.lower())`
lexicographically, i.e. newest first, ties case-insensitively
alphabetical. -/
def tagLe (m : List (String × Nat)) (a b : String) : Prop :=
  tagTsOf m b < tagTsOf m a ∨ (tagTsOf m a = tagTsOf m b ∧ lowerLe a b)

instance (m : List (String × Nat)) : DecidableRel (tagLe m) :=
  fun a b => inferInstanceAs (Decidable (_ ∨ _))

instance (m : List (String × Nat)) : IsTotal String (tagLe m) := by
  constructor
  intro a b
  rcases Nat.lt_trichotomy (tagTsOf m a) (tagTsOf m b) with h | h | h
  · right; left; exact h
  · rcases IsTotal.total (r := lowerLe) a b with h2 | h2
    · left; right; exact ⟨h, h2⟩
    · right; right; exact ⟨h.symm, h2⟩
  · left; left; exact h

instance (m : List (String × Nat)) : IsTrans String (tagLe m) := by
  constructor
  intro a b c h1 h2
  rcases h1 with h1 | ⟨h1e, h1l⟩
  · rcases h2 with h2 | ⟨h2e, _⟩
    · left; omega
    · left; omega
  · rcases h2 with h2 | ⟨h2e, h2l⟩
    · left; omega
    · right; exact ⟨by omega, IsTrans.trans (r := lowerLe) _ _ _ h1l h2l⟩

/-- Embedding of `sort_tags_by_timestamp`: with metadata, sort by
`(-timestamp, lowercase name)`; without, fall back to plain
case-insensitive alphabetical order.  A stable sort models Python's
`sorted`. -/
def sortTagsByTimestamp (tags_list : List String)
    (manifest_metadata : List (String × ManifestMeta)) : List String :=
  if manifest_metadata.isEmpty then
    List.insertionSort lowerLe tags_list
  else
    List.insertionSort (tagLe (buildTagTimestamps manifest_metadata)) tags_list

/-- The `recent_tags` selection attached to a repository entry
(registry_client.py lines 702-703): sorted tags, first three. -/
def recentTagsOf (tags_list : List String)
    (manifest_metadata : List (String × ManifestMeta)) : List String :=
  (sortTagsByTimestamp tags_list manifest_metadata).take 3

/-! ## Theorems -/

/-- C4: in every execution of `_make_request` at most two GETs are issued;
a second GET happens only when the first returned 401 with truthy
credentials and an auth mode other than `basic` and a token was actually
obtained, and then it carries `Authorization: Bearer <token>`; under mode
`basic` no token retry ever occurs. -/
theorem C4_single_token_upgrade (authType : String) (u p : Option String)
    (st : TokenState) (now elapsed : Nat) (url : String)
    (first : Except String HttpResponse) (tokenOutcome : Option String)
    (retry : Except String HttpResponse) :
    (makeRequest authType u p st now elapsed url first tokenOutcome retry).2.length ≤ 2 ∧
    ((makeRequest authType u p st now elapsed url first tokenOutcome retry).2.length = 2 →
      ∃ resp tok, first = .ok resp ∧ resp.status_code = 401 ∧
        optStrTruthy u = true ∧ optStrTruthy p = true ∧ authType ≠ "basic" ∧
        tokenOutcome = some tok ∧
        (makeRequest authType u p st now elapsed url first tokenOutcome retry).2 =
          [(getAuthHeaders authType u p st now).1, some (.bearerTok tok)]) ∧
    (authType = "basic" →
      (makeRequest authType u p st now elapsed url first tokenOutcome retry).2.length = 1) ∧
    (∀ resp tok, first = .ok resp → resp.status_code = 401 →
      optStrTruthy u = true → optStrTruthy p = true → authType ≠ "basic" →
      tokenOutcome = some tok →
      (makeRequest authType u p st now elapsed url first tokenOutcome retry).2 =
        [(getAuthHeaders authType u p st now).1, some (.bearerTok tok)]) := by
  unfold makeRequest
  cases first with
  | error e =>
    exact ⟨by simp, by simp, fun _ => by simp, fun resp tok h1 => by cases h1⟩
  | ok resp =>
    dsimp only
    by_cases h401 : resp.status_code = 401
    · by_cases hcond : (optStrTruthy u && optStrTruthy p && decide (authType ≠ "basic")) = true
      · obtain ⟨⟨hu, hp⟩, hb⟩ :
            (optStrTruthy u = true ∧ optStrTruthy p = true) ∧ authType ≠ "basic" := by
          simpa using hcond
        cases tokenOutcome with
        | none =>
          rw [if_pos h401, if_pos hcond]
          exact ⟨by simp, by simp, fun _ => by simp,
            fun resp2 tok2 _ _ _ _ _ htok2 => by cases htok2⟩
        | some tok =>
          cases retry with
          | error e =>
            rw [if_pos h401, if_pos hcond]
            exact ⟨by simp, fun _ => ⟨resp, tok, rfl, h401, hu, hp, hb, rfl, rfl⟩,
              fun hbasic => absurd hbasic hb,
              fun resp2 tok2 h1 _ _ _ _ htok2 => by cases h1; cases htok2; rfl⟩
          | ok resp2 =>
            rw [if_pos h401, if_pos hcond]
            exact ⟨by simp, fun _ => ⟨resp, tok, rfl, h401, hu, hp, hb, rfl, rfl⟩,
              fun hbasic => absurd hbasic hb,
              fun resp3 tok2 h1 _ _ _ _ htok2 => by cases h1; cases htok2; rfl⟩
      · rw [if_pos h401, if_neg hcond]
        exact ⟨by simp, by simp, fun _ => by simp,
          fun resp2 tok2 h1 _ hu hp hb _ =>
            absurd (by rw [hu, hp]; simp [hb]) hcond⟩
    · rw [if_neg h401]
      exact ⟨by simp, by simp, fun _ => by simp,
        fun resp2 tok2 h1 h401b _ _ _ _ => by
          cases h1
          exact absurd h401b h401⟩

/-- C4 witness: under auth mode `basic` the trace has exactly one GET. -/
theorem C4_witness :
    (makeRequest "basic" (some "u") (some "pw") ⟨none, none⟩ 0 7 "https://r/v2/"
      (.ok ⟨401, "denied", 6⟩) (some "tk") (.ok ⟨200, "ok", 2⟩)).2.length = 1 :=
  (C4_single_token_upgrade "basic" (some "u") (some "pw") ⟨none, none⟩ 0 7 "https://r/v2/"
    (.ok ⟨401, "denied", 6⟩) (some "tk") (.ok ⟨200, "ok", 2⟩)).2.2.1 rfl

/-- C5: a transport-level exception is converted into a returned record
with status 0, the elapsed duration, zero size and the error text, and a
nonempty diagnostic hint is appended for Google-hosted URLs,
TLS/certificate errors and permission/unauthorized errors. -/
theorem C5_transport_failure_record (authType : String) (u p : Option String)
    (st : TokenState) (now elapsed : Nat) (url e : String)
    (tokenOutcome : Option String) (retry : Except String HttpResponse) :
    (makeRequest authType u p st now elapsed url (.error e) tokenOutcome retry).1 =
      mkErrorRecord url e elapsed ∧
    (mkErrorRecord url e elapsed).status_code = 0 ∧
    (mkErrorRecord url e elapsed).duration_ms = elapsed ∧
    (mkErrorRecord url e elapsed).size_bytes = 0 ∧
    (mkErrorRecord url e elapsed).error = some e ∧
    (mkErrorRecord url e elapsed).content_preview = "Error: " ++ e ++ errorHint url e ∧
    ((strHasSub url "gcr.io" = true ∨ strHasSub url "googleapis.com" = true ∨
      strHasSub (lowerStr e) "certificate" = true ∨ strHasSub (lowerStr e) "ssl" = true ∨
      strHasSub (lowerStr e) "permission" = true ∨
      strHasSub (lowerStr e) "unauthorized" = true) →
      errorHint url e ≠ "") := by
  refine ⟨rfl, rfl, rfl, rfl, rfl, rfl, ?_⟩
  intro hcase
  unfold errorHint
  by_cases h1 : (strHasSub url "gcr.io" || strHasSub url "googleapis.com") = true
  · rw [if_pos h1]; decide
  · rw [if_neg h1]
    by_cases h2 : (strHasSub (lowerStr e) "certificate" || strHasSub (lowerStr e) "ssl") = true
    · rw [if_pos h2]; decide
    · rw [if_neg h2]
      by_cases h3 : (strHasSub (lowerStr e) "permission" ||
          strHasSub (lowerStr e) "unauthorized") = true
      · rw [if_pos h3]; decide
      · exfalso
        simp only [Bool.or_eq_true, not_or, Bool.not_eq_true] at h1 h2 h3
        rcases hcase with h | h | h | h | h | h
        · rw [h1.1] at h; exact Bool.false_ne_true h
        · rw [h1.2] at h; exact Bool.false_ne_true h
        · rw [h2.1] at h; exact Bool.false_ne_true h
        · rw [h2.2] at h; exact Bool.false_ne_true h
        · rw [h3.1] at h; exact Bool.false_ne_true h
        · rw [h3.2] at h; exact Bool.false_ne_true h

/-- C5 witness: a TLS failure against a Google-hosted registry produces
the annotated status-0 record. -/
theorem C5_witness :
    (makeRequest "none" none none ⟨none, none⟩ 0 42 "https://gcr.io/v2/"
        (.error "ssl handshake failed") none (.ok ⟨200, "", 0⟩)).1.status_code = 0 ∧
    errorHint "https://gcr.io/v2/" "ssl handshake failed" ≠ "" := by
  have h := C5_transport_failure_record "none" none none ⟨none, none⟩ 0 42 "https://gcr.io/v2/"
    "ssl handshake failed" none (.ok ⟨200, "", 0⟩)
  refine ⟨?_, ?_⟩
  · rw [h.1]
    exact h.2.1
  · exact h.2.2.2.2.2.2 (Or.inl (by decide))

/-- C6 counterexample: a cached token with `expires_at = 0` is treated as
having no expiry (Python truthiness of `self.token_expires_at`), so at
`now = 5` the code still returns the Bearer header and does not clear the
cache, while the claim's invariant says it is unusable (`now < expires_at`
fails) and must be cleared. -/
theorem C6_counterexample :
    tokenUsableSpec { cached_token := some "tok", token_expires_at := some 0 } 5 = false ∧
    getAuthHeaders "token" none none
        { cached_token := some "tok", token_expires_at := some 0 } 5 =
      (some (.bearerTok "tok"),
        { cached_token := some "tok", token_expires_at := some 0 }) := by
  constructor
  · decide
  · decide

/-- C6 (amended): under auth mode `token`, the header computation uses
the cached token (returning a Bearer header of exactly that token) iff
the token is truthy and the recorded expiry is falsy (absent or zero) or
still in the future; whenever a truthy cached token has a nonzero expiry
that has been reached, the cache entry is cleared and the empty header
map is returned. -/
theorem C6_token_cache_expiry (u p : Option String) (st : TokenState) (now : Nat) :
    ((getAuthHeaders "token" u p st now).1 = some (.bearerTok (st.cached_token.getD "")) ↔
      (optStrTruthy st.cached_token = true ∧
        (optNatTruthy st.token_expires_at = false ∨ now < st.token_expires_at.getD 0))) ∧
    (¬(optStrTruthy st.cached_token = true ∧
        (optNatTruthy st.token_expires_at = false ∨ now < st.token_expires_at.getD 0)) →
      (getAuthHeaders "token" u p st now).1 = none) ∧
    (optStrTruthy st.cached_token = true → optNatTruthy st.token_expires_at = true →
      st.token_expires_at.getD 0 ≤ now →
      getAuthHeaders "token" u p st now = (none, { st with cached_token := none })) := by
  unfold getAuthHeaders
  rw [if_neg (by decide : ¬("token" : String) = "basic"),
    if_neg (by decide : ¬("token" : String) = "bearer")]
  by_cases htok : optStrTruthy st.cached_token = true
  · have hguard : (decide (("token" : String) = "token") && optStrTruthy st.cached_token) = true := by
      rw [htok]; decide
    rw [if_pos hguard]
    by_cases hexp : (optNatTruthy st.token_expires_at &&
        decide (st.token_expires_at.getD 0 ≤ now)) = true
    · obtain ⟨he1, he2⟩ := by simpa using hexp
      rw [if_pos hexp]
      refine ⟨?_, fun _ => rfl, fun _ _ _ => rfl⟩
      constructor
      · intro h; exact absurd h (by simp)
      · rintro ⟨-, h | h⟩
        · rw [he1] at h; exact absurd h (by decide)
        · omega
    · rw [if_neg hexp]
      have hcase : optNatTruthy st.token_expires_at = false ∨
          now < st.token_expires_at.getD 0 := by
        rcases Bool.eq_false_or_eq_true (optNatTruthy st.token_expires_at) with h | h
        · right
          by_contra hlt
          exact hexp (by rw [h]; simpa using Nat.le_of_not_lt hlt)
        · exact Or.inl h
      refine ⟨?_, fun hneg => absurd ⟨htok, hcase⟩ hneg, fun _ he _ => ?_⟩
      · exact ⟨fun _ => ⟨htok, hcase⟩, fun _ => rfl⟩
      · exfalso
        rcases hcase with h | h
        · rw [he] at h; exact absurd h (by decide)
        · have := by simpa [he] using hexp
          omega
  · have hguard : (decide (("token" : String) = "token") && optStrTruthy st.cached_token) = false := by
      rcases Bool.eq_false_or_eq_true (optStrTruthy st.cached_token) with h | h
      · exact absurd h htok
      · rw [h]; decide
    rw [if_neg (by rw [hguard]; decide)]
    refine ⟨?_, fun _ => rfl, fun ht => absurd ht htok⟩
    constructor
    · intro h; exact absurd h (by simp)
    · rintro ⟨ht, -⟩; exact absurd ht htok

/-- C6 witness: a truthy token with nonzero expiry 10 used at time 10 is
cleared and the empty header map is returned. -/
theorem C6_witness :
    getAuthHeaders "token" none none
        { cached_token := some "tok", token_expires_at := some 10 } 10 =
      (none, { cached_token := none, token_expires_at := some 10 }) :=
  (C6_token_cache_expiry none none
      { cached_token := some "tok", token_expires_at := some 10 } 10).2.2
    (by decide) (by decide) (by decide)

/-- C10: `get_manifest` issues exactly one GET carrying only the up-front
auth headers, whatever the outcome; in particular a 401 with credentials
configured is returned as-is, with no token-acquisition retry. -/
theorem C10_manifest_no_upgrade (authType : String) (u p : Option String)
    (st : TokenState) (now elapsed : Nat) (url : String)
    (outcome : Except String HttpResponse) :
    (getManifest authType u p st now elapsed url outcome).2 =
      [(getAuthHeaders authType u p st now).1] ∧
    (∀ resp, outcome = .ok resp → resp.status_code = 401 →
      optStrTruthy u = true → optStrTruthy p = true →
      (getManifest authType u p st now elapsed url outcome).1.status_code = 401) := by
  cases outcome with
  | error e => exact ⟨rfl, fun resp h => by cases h⟩
  | ok resp =>
    refine ⟨rfl, fun resp2 h h401 _ _ => ?_⟩
    cases h
    exact h401

/-- C10 witness: a 401 manifest response with credentials configured is
returned with status 401 and a single GET. -/
theorem C10_witness :
    (getManifest "bearer" (some "u") (some "pw") ⟨none, none⟩ 0 3 "https://r/v2/x/manifests/t"
        (.ok ⟨401, "denied", 6⟩)).1.status_code = 401 :=
  (C10_manifest_no_upgrade "bearer" (some "u") (some "pw") ⟨none, none⟩ 0 3
      "https://r/v2/x/manifests/t" (.ok ⟨401, "denied", 6⟩)).2
    ⟨401, "denied", 6⟩ rfl rfl rfl rfl

/-- C8 counterexample: two ways a value whose key matches the
sensitive-keyword set reaches a stored log entry verbatim.  On the
debug-logger path, the `first3...last3` truncation is the identity on
9-character values with a literal `...` middle, so the sensitive key
`authorization` with value `abc...xyz` is stored verbatim.  On the
response-header path, `_filter_response_headers` whitelists
`www-authenticate` — a key containing the sensitive keywords
`www-authenticate` and `authenticate` — and stores its value verbatim in
the audit-log record. -/
theorem C8_counterexample :
    (isSensitiveKey "authorization" = true ∧
      maskSensitiveData "authorization" "abc...xyz" = "abc...xyz") ∧
    (isSensitiveKey "WWW-Authenticate" = true ∧
      filterResponseHeaders [("WWW-Authenticate", "Bearer realm=r,service=s")] =
        [("WWW-Authenticate", "Bearer realm=r,service=s")]) := by
  refine ⟨⟨by decide, by decide⟩, by decide, by decide⟩

/-- C8 (amended): redaction before storage is two-mode.  On the TUI
debug-logger path, every kwargs pair whose key contains a sensitive
keyword is stored as its masked form — `[REDACTED]` for empty or
8-character-or-shorter values, a 9-character `first3...last3` truncation
otherwise — so such a value is stored verbatim only at the truncation's
fixed points (9-character values whose middle three characters are
literally `...`); an `Authorization: Bearer <token>` value of any other
length never appears verbatim in a debug-log line.  On the
response-header path feeding the audit log, redaction is by omission: a
header survives the filter only if its name is whitelisted or is a
custom `x-` header free of `auth`/`token`/`key`/`secret` fragments —
`Authorization` and `Set-Cookie` never survive — but a surviving
header's value (notably `WWW-Authenticate`, whose key matches the
sensitive-keyword set) is stored verbatim. -/
theorem C8_redaction :
    (∀ (kwargs : List (String × String)) (k v : String),
      (k, v) ∈ kwargs → isSensitiveKey k = true →
      (k, maskSensitiveData k v) ∈ mkSafeKwargs kwargs ∧
      (maskSensitiveData k v = "[REDACTED]" ∨
        ((maskSensitiveData k v).data.length = 9 ∧
          ∃ a b : String, maskSensitiveData k v = a ++ "..." ++ b ∧
            a.data.length = 3 ∧ b.data.length = 3)) ∧
      (v.data.length ≠ 9 → maskSensitiveData k v ≠ v)) ∧
    (∀ (headers : List (String × String)) (k v : String),
      (k, v) ∈ filterResponseHeaders headers → headerKept k = true) ∧
    (∀ (headers : List (String × String)) (v : String),
      ("Authorization", v) ∉ filterResponseHeaders headers ∧
      ("Set-Cookie", v) ∉ filterResponseHeaders headers) := by
  refine ⟨?_, ?_, ?_⟩
  · intro kwargs k v hmem hs
    have hmm : (k, maskSensitiveData k v) ∈ mkSafeKwargs kwargs := by
      unfold mkSafeKwargs
      exact List.mem_map.mpr ⟨(k, v), hmem, rfl⟩
    refine ⟨hmm, ?_, ?_⟩
    · unfold maskSensitiveData
      rw [if_pos hs]
      by_cases hpos : v.data.length > 0
      · rw [if_pos hpos]
        by_cases hshort : v.data.length ≤ 8
        · rw [if_pos hshort]
          exact Or.inl rfl
        · rw [if_neg hshort]
          right
          have h3 : (v.data.take 3).length = 3 := by
            rw [List.length_take]; omega
          have hd3 : (v.data.drop (v.data.length - 3)).length = 3 := by
            rw [List.length_drop]; omega
          constructor
          · rw [String.data_append, String.data_append]
            simp only [List.length_append]
            have hdots : (['.', '.', '.'] : List Char).length = 3 := rfl
            omega
          · exact ⟨⟨v.data.take 3⟩, ⟨v.data.drop (v.data.length - 3)⟩, rfl, h3, hd3⟩
      · rw [if_neg hpos]
        exact Or.inl rfl
    · intro hne heq
      unfold maskSensitiveData at heq
      rw [if_pos hs] at heq
      by_cases hpos : v.data.length > 0
      · rw [if_pos hpos] at heq
        by_cases hshort : v.data.length ≤ 8
        · rw [if_pos hshort] at heq
          have h10 : v.data.length = 10 := by
            rw [← heq]; decide
          omega
        · rw [if_neg hshort] at heq
          apply hne
          rw [← heq, String.data_append, String.data_append]
          simp only [List.length_append]
          have h3 : (v.data.take 3).length = 3 := by
            rw [List.length_take]; omega
          have hd3 : (v.data.drop (v.data.length - 3)).length = 3 := by
            rw [List.length_drop]; omega
          have hdots : (['.', '.', '.'] : List Char).length = 3 := rfl
          omega
      · rw [if_neg hpos] at heq
        have h10 : v.data.length = 10 := by
          rw [← heq]; decide
        omega
  · intro headers k v hmem
    exact (List.mem_filter.mp hmem).2
  · intro headers v
    constructor
    · intro hmem
      have h : headerKept "Authorization" = true := (List.mem_filter.mp hmem).2
      exact absurd h (by decide)
    · intro hmem
      have h : headerKept "Set-Cookie" = true := (List.mem_filter.mp hmem).2
      exact absurd h (by decide)

/-- C8 witness: the P6 header value `Bearer abcdefghij1234` is stored as
a non-verbatim masked form on the debug-logger path and is dropped
entirely by the response-header filter when it arrives under the
`Authorization` key. -/
theorem C8_witness :
    (("Authorization" : String), maskSensitiveData "Authorization" "Bearer abcdefghij1234") ∈
      mkSafeKwargs [("Authorization", "Bearer abcdefghij1234")] ∧
    maskSensitiveData "Authorization" "Bearer abcdefghij1234" ≠ "Bearer abcdefghij1234" ∧
    (("Authorization" : String), ("Bearer abcdefghij1234" : String)) ∉
      filterResponseHeaders [("Authorization", "Bearer abcdefghij1234")] := by
  have h := C8_redaction
  have h1 := h.1 [("Authorization", "Bearer abcdefghij1234")]
    "Authorization" "Bearer abcdefghij1234" (by simp) (by decide)
  exact ⟨h1.1, h1.2.2 (by decide),
    (h.2.2 [("Authorization", "Bearer abcdefghij1234")] "Bearer abcdefghij1234").1⟩

theorem addApiCall_eq (log : List ApiRecord) (r : ApiRecord) :
    addApiCall log r = if (log ++ [r]).length > 100
      then (log ++ [r]).drop ((log ++ [r]).length - 100) else log ++ [r] := rfl

/-- C9: after any sequence of appends starting from the empty audit log,
the log holds exactly the most recent `min(total, 100)` records in their
original relative order, and the purge empties it. -/
theorem C9_audit_log_bound (records : List ApiRecord) :
    List.foldl addApiCall [] records = records.drop (records.length - 100) ∧
    purgeApiCalls (List.foldl addApiCall [] records) = [] := by
  refine ⟨?_, rfl⟩
  induction records using List.reverseRecOn with
  | nil => rfl
  | append_singleton l r ih =>
    rw [List.foldl_append, List.foldl_cons, List.foldl_nil, ih, addApiCall_eq]
    by_cases hlen : l.length ≤ 99
    · have h0 : l.length - 100 = 0 := by omega
      rw [h0, List.drop_zero]
      rw [if_neg (by rw [List.length_append, List.length_singleton]; omega)]
      have h1 : (l ++ [r]).length - 100 = 0 := by
        rw [List.length_append, List.length_singleton]; omega
      rw [h1, List.drop_zero]
    · have hd : (l.drop (l.length - 100)).length = 100 := by
        rw [List.length_drop]; omega
      rw [if_pos (by rw [List.length_append, hd, List.length_singleton]; omega)]
      rw [List.length_append, hd, List.length_singleton]
      have h1 : (100 : Nat) + 1 - 100 = 1 := by norm_num
      rw [h1]
      rw [List.drop_append_of_le_length (by rw [hd]; omega)]
      rw [List.drop_drop]
      rw [List.length_append, List.length_singleton]
      have h2 : l.length + 1 - 100 = l.length - 100 + 1 := by omega
      rw [h2]
      rw [List.drop_append_of_le_length (by omega)]

theorem chunkAux_nil (P fuel : Nat) : chunkAux P fuel [] = [] := by
  cases fuel <;> rfl

/-- Core pagination lemma: when the server splits the catalog into pages
of size `P` at least as large as the client's requested page size, the
accumulation loop collects every page. -/
theorem fetchChunks (fuel : Nat) : ∀ (l acc : List String) (tok : Option String)
    (P pageSize target : Nat), 1 ≤ P → pageSize ≤ P → l.length ≤ fuel →
    target = acc.length + l.length →
    (fetchCatalogPages pageSize target (mkPages (chunkAux P fuel l)) acc tok).1 = acc ++ l := by
  induction fuel with
  | zero =>
    intro l acc tok P pageSize target _ _ hfuel _
    have hl : l = [] := List.eq_nil_of_length_eq_zero (by omega)
    subst hl
    simp [chunkAux, mkPages, fetchCatalogPages]
  | succ fuel ih =>
    intro l acc tok P pageSize target hP hPS hfuel htgt
    cases l with
    | nil => simp [chunkAux, mkPages, fetchCatalogPages]
    | cons x xs =>
      have hgt : ¬ target ≤ acc.length := by
        rw [htgt]; simp only [List.length_cons]; omega
      by_cases hdrop : (x :: xs).drop P = []
      · have hlen : (x :: xs).length ≤ P := List.drop_eq_nil_iff.mp hdrop
        have htake : (x :: xs).take P = x :: xs := List.take_of_length_le hlen
        have hchunk : chunkAux P (fuel + 1) (x :: xs) = [x :: xs] := by
          show (x :: xs).take P :: chunkAux P fuel ((x :: xs).drop P) = _
          rw [hdrop, chunkAux_nil, htake]
        rw [hchunk]
        have hstep : fetchCatalogPages pageSize target
            (mkPages [x :: xs]) acc tok
          = if target ≤ acc.length then (acc, tok)
            else if (200 : Nat) ≠ 200 then (acc, tok)
            else if (x :: xs).isEmpty then (acc, tok)
            else (acc ++ (x :: xs), tok) := rfl
        rw [hstep, if_neg hgt, if_neg (by simp), if_neg (by simp)]
      · have hlen : P < (x :: xs).length := by
          by_contra hle
          exact hdrop (List.drop_eq_nil_of_le (by omega))
        have htakeLen : ((x :: xs).take P).length = P := by
          rw [List.length_take]; omega
        obtain ⟨c, cs, hcs⟩ :
            ∃ c cs, chunkAux P fuel ((x :: xs).drop P) = c :: cs := by
          have hdl : 1 ≤ ((x :: xs).drop P).length := by
            cases hfe : (x :: xs).drop P with
            | nil => exact absurd hfe hdrop
            | cons d ds => simp
          cases fuel with
          | zero =>
            exfalso
            rw [List.length_drop] at hdl
            simp only [List.length_cons] at hfuel hlen
            omega
          | succ f =>
            cases hfe : (x :: xs).drop P with
            | nil => exact absurd hfe hdrop
            | cons d ds =>
              exact ⟨(d :: ds).take P, chunkAux P f ((d :: ds).drop P), rfl⟩
        have hchunk : chunkAux P (fuel + 1) (x :: xs)
            = (x :: xs).take P :: c :: cs := by
          show (x :: xs).take P :: chunkAux P fuel ((x :: xs).drop P) = _
          rw [hcs]
        rw [hchunk]
        have hstep : fetchCatalogPages pageSize target
            (mkPages ((x :: xs).take P :: c :: cs)) acc tok
          = if target ≤ acc.length then (acc, tok)
            else if (200 : Nat) ≠ 200 then (acc, tok)
            else if ((x :: xs).take P).isEmpty then (acc, tok)
            else if ((x :: xs).take P).length < pageSize
              then (acc ++ (x :: xs).take P, some "next-token")
              else fetchCatalogPages pageSize target (mkPages (c :: cs))
                (acc ++ (x :: xs).take P) (some "next-token") := rfl
        have hne : ¬ ((x :: xs).take P).isEmpty = true := by
          rw [List.isEmpty_iff]
          intro h
          rw [h] at htakeLen
          simp at htakeLen
          omega
        have hsz : ¬ ((x :: xs).take P).length < pageSize := by
          rw [htakeLen]; omega
        rw [hstep, if_neg hgt, if_neg (by simp), if_neg hne, if_neg hsz]
        have happ := ih ((x :: xs).drop P) (acc ++ (x :: xs).take P)
          (some "next-token") P pageSize target hP hPS
          (by
            rw [List.length_drop]
            simp only [List.length_cons] at hfuel ⊢
            omega)
          (by
            have h1 : (acc ++ (x :: xs).take P).length = acc.length + P := by
              rw [List.length_append, htakeLen]
            have h2 : ((x :: xs).drop P).length = (x :: xs).length - P := by
              rw [List.length_drop]
            rw [h1, h2, htgt]
            simp only [List.length_cons] at hlen ⊢
            omega)
        rw [hcs] at happ
        rw [happ, List.append_assoc, List.take_append_drop]

/-- C1 counterexample: a catalog of two names served in pages of size 1
(each non-final page with a proper `rel="next"` link) and a request with
`offset=0, limit=2` returns only `["a"]` — the loop breaks on the
"page smaller than requested" check even though a `next` link was
present, so `"b"` is lost. -/
theorem C1_counterexample :
    (getRepositoriesModel (mkPages (chunkList 1 ["a", "b"])) 0 2).names = ["a"] ∧
    "b" ∈ (["a", "b"] : List String) ∧
    "b" ∉ (getRepositoriesModel (mkPages (chunkList 1 ["a", "b"])) 0 2).names := by
  refine ⟨by decide, by decide, by decide⟩

/-- C1 (amended): provided every server page holds at least
`min(100, offset + limit)` names (the page size the client requests),
`get_repositories` with `offset = 0, limit = N` over an `N`-name catalog
returns all `N` names with no duplicates and no gaps — the returned list
is the case-insensitively sorted permutation of the accumulated window
`all_repositories[0:N]`, which is the whole catalog. -/
theorem C1_pagination_completeness (l : List String) (P : Nat)
    (hP1 : 1 ≤ P) (hP : min 100 l.length ≤ P) :
    (getRepositoriesModel (mkPages (chunkList P l)) 0 l.length).names.Perm l ∧
    List.Sorted lowerLe
      (getRepositoriesModel (mkPages (chunkList P l)) 0 l.length).names := by
  have hfetch := fetchChunks l.length l [] none P (min 100 (l.length + 0)) (0 + l.length)
    hP1 (by simpa using hP) (le_refl _) (by simp)
  have hnames : (getRepositoriesModel (mkPages (chunkList P l)) 0 l.length).names
      = List.insertionSort lowerLe l := by
    unfold getRepositoriesModel chunkList
    dsimp only
    rw [hfetch]
    simp
  rw [hnames]
  exact ⟨List.perm_insertionSort lowerLe l, List.sorted_insertionSort lowerLe l⟩

/-- C1 witness: a two-name catalog served in pages of size 2 comes back
as a permutation of the catalog. -/
theorem C1_witness :
    (getRepositoriesModel (mkPages (chunkList 2 ["b", "a"])) 0 2).names.Perm ["b", "a"] :=
  (C1_pagination_completeness ["b", "a"] 2 (by decide) (by decide)).1

/-- C2: when a continuation request made with a stored `next_page` token
and method `link_header` comes back with HTTP 400 or 401, the screen
switches its recorded method to the offset fallback tag and retries via
offset-based `get_repositories` with `offset` equal to the number of
entries already loaded and `limit` equal to the batch size 100; the
repositories handed to the UI and the stored continuation token are those
of the fallback result, not an error. -/
theorem C2_token_expiry_fallback (st : ScreenPagState) (contPage : CatalogPage)
    (server : List CatalogPage)
    (htok : optStrTruthy st.next_page_token = true)
    (hmethod : st.pagination_method = "link_header")
    (hstatus : contPage.status_code = 400 ∨ contPage.status_code = 401) :
    (loadMoreRepositories st contPage server).1.pagination_method =
      "offset_fallback_due_to_expiration" ∧
    (loadMoreRepositories st contPage server).2 =
      (getRepositoriesModel server st.repo_count 100).names ∧
    (loadMoreRepositories st contPage server).1.next_page_token =
      (getRepositoriesModel server st.repo_count 100).pagination.next_page_token := by
  have hcond : (optStrTruthy st.next_page_token &&
      (st.pagination_method == "link_header")) = true := by
    rw [htok, hmethod]; decide
  have hne : contPage.status_code ≠ 200 := by
    rcases hstatus with h | h <;> omega
  have hexp : (continueRepositoriesPagination contPage).token_expired = true := by
    unfold continueRepositoriesPagination
    rw [if_pos hne]
    exact decide_eq_true hstatus
  unfold loadMoreRepositories
  dsimp only
  rw [if_pos hcond, if_pos hexp]
  by_cases hempty :
      (getRepositoriesModel server st.repo_count 100).names.isEmpty = true
  · rw [if_pos hempty]
    exact ⟨rfl, rfl, rfl⟩
  · rw [if_neg hempty]
    exact ⟨rfl, rfl, rfl⟩

/-- C2 witness: an expired token (HTTP 400) with an offset-based server
still holding data produces a nonempty fallback batch under the fallback
method tag. -/
theorem C2_witness :
    (loadMoreRepositories ⟨some "tok", "link_header", 0, false⟩ ⟨400, [], none⟩
        [⟨200, ["x", "y"], none⟩]).1.pagination_method =
      "offset_fallback_due_to_expiration" ∧
    (loadMoreRepositories ⟨some "tok", "link_header", 0, false⟩ ⟨400, [], none⟩
        [⟨200, ["x", "y"], none⟩]).2 = ["x", "y"] := by
  have h := C2_token_expiry_fallback ⟨some "tok", "link_header", 0, false⟩
    ⟨400, [], none⟩ [⟨200, ["x", "y"], none⟩] (by decide) rfl (Or.inl rfl)
  refine ⟨h.1, ?_⟩
  rw [h.2.1]
  decide

/-- C3: when every monitored fetch succeeds (no failed entries) and the
monitored names are the duplicate-free user set, the merged listing
splits as a sorted block of exactly the monitored entries followed by a
sorted block of the catalog entries that survive the exact, case-sensitive
name dedup; every monitored entry precedes every catalog entry, and each
monitored name occurs exactly once in the whole merged listing. -/
theorem C3_monitored_merge (monitored catalog : List RepoEntry)
    (hnodup : (monitored.map (fun e => e.name)).Nodup)
    (hmon : ∀ e ∈ monitored, e.is_monitored = true)
    (hcat : ∀ e ∈ catalog, e.is_monitored = false) :
    (∃ A B, mergeMonitoredCatalog monitored catalog [] = A ++ B ∧
      A.Perm monitored ∧
      B.Perm (catalog.filter
        (fun r => !((monitored.map (fun e => e.name)).contains r.name))) ∧
      List.Sorted entryLe A ∧ List.Sorted entryLe B ∧
      (∀ a ∈ A, a.is_monitored = true) ∧ (∀ b ∈ B, b.is_monitored = false)) ∧
    (∀ m ∈ monitored,
      ((mergeMonitoredCatalog monitored catalog []).map
        (fun e => e.name)).count m.name = 1) := by
  have hmerge : mergeMonitoredCatalog monitored catalog [] =
      List.insertionSort entryLe monitored ++
      List.insertionSort entryLe (catalog.filter
        (fun r => !((monitored.map (fun e => e.name)).contains r.name))) := by
    unfold mergeMonitoredCatalog
    dsimp only
    rw [List.map_nil, List.append_nil]
  have hAperm := List.perm_insertionSort entryLe monitored
  have hBperm := List.perm_insertionSort entryLe (catalog.filter
    (fun r => !((monitored.map (fun e => e.name)).contains r.name)))
  constructor
  · refine ⟨_, _, hmerge, hAperm, hBperm,
      List.sorted_insertionSort entryLe monitored,
      List.sorted_insertionSort entryLe _, ?_, ?_⟩
    · intro a ha
      exact hmon a (hAperm.mem_iff.mp ha)
    · intro b hb
      exact hcat b (List.mem_filter.mp (hBperm.mem_iff.mp hb)).1
  · intro m hm
    rw [hmerge, List.map_append, List.count_append]
    have hA : (List.map (fun e => e.name)
        (List.insertionSort entryLe monitored)).count m.name = 1 := by
      rw [(hAperm.map (fun e => e.name)).count_eq]
      exact List.count_eq_one_of_mem hnodup (List.mem_map.mpr ⟨m, hm, rfl⟩)
    have hB : (List.map (fun e => e.name)
        (List.insertionSort entryLe (catalog.filter
          (fun r => !((monitored.map (fun e => e.name)).contains r.name))))).count
        m.name = 0 := by
      rw [List.count_eq_zero]
      intro hmem
      obtain ⟨b, hbB, hbname⟩ := List.mem_map.mp hmem
      have hbf := hBperm.mem_iff.mp hbB
      have hfalse : ((monitored.map (fun e => e.name)).contains b.name) = false := by
        have h2 := (List.mem_filter.mp hbf).2
        cases hx : (monitored.map (fun e => e.name)).contains b.name
        · rfl
        · rw [hx] at h2; simp at h2
      have hmemname : b.name ∈ monitored.map (fun e => e.name) := by
        rw [hbname]
        exact List.mem_map.mpr ⟨m, hm, rfl⟩
      have := List.elem_iff.mpr hmemname
      rw [List.contains] at hfalse
      rw [this] at hfalse
      cases hfalse
    rw [hA, hB]

/-- C3 witness: the P4 instance (catalog `a, b, c`; monitored `b, z`, both
succeeding) yields exactly one entry named `b` in the merged listing. -/
theorem C3_witness :
    ((mergeMonitoredCatalog
        [⟨"b", true, false⟩, ⟨"z", true, false⟩]
        [⟨"a", false, false⟩, ⟨"b", false, false⟩, ⟨"c", false, false⟩]
        []).map (fun e => e.name)).count "b" = 1 :=
  (C3_monitored_merge
      [⟨"b", true, false⟩, ⟨"z", true, false⟩]
      [⟨"a", false, false⟩, ⟨"b", false, false⟩, ⟨"c", false, false⟩]
      (by decide) (by decide) (by decide)).2
    ⟨"b", true, false⟩ (by decide)

/-- C7 counterexample: for metadata mapping `v2` to 200 and `v1` to 100
and tag list `["v1", "v2", "latest"]`, the registry path's recent-tags
selection is `["v2", "v1", "latest"]` — the tag literal `latest` is not
excluded (only the mock-mode and local-runtime paths exclude it), so the
claimed selection `["v2", "v1"]` is wrong. -/
theorem C7_counterexample :
    recentTagsOf ["v1", "v2", "latest"]
        [("sha-v2", ⟨["v2"], 200, 0⟩), ("sha-v1", ⟨["v1"], 100, 0⟩)] =
      ["v2", "v1", "latest"] ∧
    "latest" ∈ recentTagsOf ["v1", "v2", "latest"]
        [("sha-v2", ⟨["v2"], 200, 0⟩), ("sha-v1", ⟨["v1"], 100, 0⟩)] ∧
    recentTagsOf ["v1", "v2", "latest"]
        [("sha-v2", ⟨["v2"], 200, 0⟩), ("sha-v1", ⟨["v1"], 100, 0⟩)] ≠ ["v2", "v1"] := by
  refine ⟨by decide, by decide, by decide⟩

/-- C7 (amended): the recent-tags sequence has length at most 3 and is
the 3-prefix of a permutation of the tags list that is sorted
newest-first by manifest timestamp (upload time preferred over creation
time, ties broken by lowercase name) when metadata is present, and
case-insensitively alphabetical when it is absent; the tag literal
`latest` is not excluded by this path. -/
theorem C7_recent_tags (tags : List String) (md : List (String × ManifestMeta)) :
    (recentTagsOf tags md).length ≤ 3 ∧
    ∃ s, s.Perm tags ∧ recentTagsOf tags md = s.take 3 ∧
      (md = [] → List.Sorted lowerLe s) ∧
      (md ≠ [] → List.Sorted (tagLe (buildTagTimestamps md)) s) := by
  constructor
  · unfold recentTagsOf
    rw [List.length_take]
    exact Nat.min_le_left 3 _
  · refine ⟨sortTagsByTimestamp tags md, ?_, rfl, ?_, ?_⟩
    · unfold sortTagsByTimestamp
      by_cases h : md.isEmpty = true
      · rw [if_pos h]; exact List.perm_insertionSort _ _
      · rw [if_neg h]; exact List.perm_insertionSort _ _
    · intro h
      unfold sortTagsByTimestamp
      rw [if_pos (by rw [h]; rfl)]
      exact List.sorted_insertionSort _ _
    · intro h
      unfold sortTagsByTimestamp
      rw [if_neg (by simpa [List.isEmpty_iff] using h)]
      exact List.sorted_insertionSort _ _

/-- C7 witness: the P7 instance has a recent-tags selection of length at
most 3. -/
theorem C7_witness :
    (recentTagsOf ["v1", "v2", "latest"]
      [("sha-v2", ⟨["v2"], 200, 0⟩), ("sha-v1", ⟨["v1"], 100, 0⟩)]).length ≤ 3 :=
  (C7_recent_tags ["v1", "v2", "latest"]
    [("sha-v2", ⟨["v2"], 200, 0⟩), ("sha-v1", ⟨["v1"], 100, 0⟩)]).1

end CardCatalog
